import Mathlib

/-!
Shallow embedding of the questdb-rs HTTP client (src/api.rs: QuestDB::exec,
QuestDB::imp, QuestDB::exp) together with theorems settling the spec claims.

Conventions of the embedding:
* Rust strings are Lean `String`; byte sequences are `List Nat` (each < 256).
* The HTTP transport, the filesystem and serde decoding are external
  collaborators; they enter as function parameters returning `Except`.
* Fallible Rust code returns `Except`; a Rust panic site is modelled by an
  `Option` layer (`none` = abort).
-/

namespace QuestDBClient

/-- Rust's Display for bool, as produced by string formatting of a bool. -/
def boolStr : Bool → String
  | true => "true"
  | false => "false"

/-- Modelled from the spec: `Atomicity` lives in src/types.rs, which is absent
from the sources; the spec says it is an enumeration with variants `Strict` and
`Relaxed`, serialized as their lowercase string form in the query string. -/
inductive Atomicity where
  | Strict
  | Relaxed
deriving DecidableEq, Repr

/-- Modelled from the spec: the lowercase serialization of `Atomicity`
(its Display impl in the absent src/types.rs). -/
def Atomicity.toString : Atomicity → String
  | .Strict => "strict"
  | .Relaxed => "relaxed"

/-- Modelled from the spec: `SQLError` lives in src/error.rs, which is absent
from the sources; the spec describes it as a structured description of a failed
query whose fields mirror what the server returns, e.g. error message and
position. -/
structure SQLError where
  errorMsg : String
  position : Option Nat
deriving DecidableEq, Repr

/-- Modelled from the spec: the `Error` type of the absent src/error.rs, with
the spec's error taxonomy: TransportError, IoError, DecodeError,
QueryFailed(SQLError). -/
inductive Error where
  | TransportError (msg : String)
  | IoError (msg : String)
  | DecodeError (msg : String)
  | QueryFailed (e : SQLError)
deriving DecidableEq, Repr

/-- UTF-8 bytes of one character (scalar value), as values below 256. -/
def utf8Bytes (c : Char) : List Nat :=
  let n := c.toNat
  if n < 0x80 then [n]
  else if n < 0x800 then [0xC0 + n / 64, 0x80 + n % 64]
  else if n < 0x10000 then [0xE0 + n / 4096, 0x80 + n / 64 % 64, 0x80 + n % 64]
  else [0xF0 + n / 262144, 0x80 + n / 4096 % 64, 0x80 + n / 64 % 64, 0x80 + n % 64]

/-- Bytes the `urlencoding` crate leaves unescaped: ASCII alphanumerics and
the marks - . _ ~ . -/
def isUrlSafeByte (b : Nat) : Bool :=
  (0x41 ≤ b && b ≤ 0x5A) || (0x61 ≤ b && b ≤ 0x7A) || (0x30 ≤ b && b ≤ 0x39)
    || b == 0x2D || b == 0x2E || b == 0x5F || b == 0x7E

/-- Uppercase hexadecimal digit for a value below 16. -/
def hexUpper (n : Nat) : Char :=
  if n < 10 then Char.ofNat (0x30 + n) else Char.ofNat (0x41 + (n - 10))

/-- Percent-encoding of a single byte, per the `urlencoding` crate. -/
def encodeByte (b : Nat) : String :=
  if isUrlSafeByte b then String.singleton (Char.ofNat b)
  else String.singleton '%' ++ String.singleton (hexUpper (b / 16))
    ++ String.singleton (hexUpper (b % 16))

/-- Model of `urlencoding::encode` (an external dependency of src/api.rs):
percent-encode every UTF-8 byte of the string except the unreserved ones. -/
def encode (s : String) : String :=
  String.join (((s.data.map utf8Bytes).flatten).map encodeByte)

/-- The URL built by QuestDB::exec in src/api.rs: the query is
percent-encoded, then each present optional parameter is appended in order. -/
def execUrl (selfUrl query : String) (limit : Option Nat)
    (count nm : Option Bool) : String :=
  let q := encode query
  let url := selfUrl ++ "/exec?query=" ++ q
  let url := match limit with
    | some l => url ++ ("&limit=" ++ Nat.repr l)
    | none => url
  let url := match count with
    | some c => url ++ ("&count=" ++ boolStr c)
    | none => url
  match nm with
  | some n => url ++ ("&nm=" ++ boolStr n)
  | none => url

/-- The URL built by QuestDB::imp in src/api.rs: the table name is inserted
verbatim, then each present optional parameter is appended in order. -/
def impUrl (selfUrl tableName : String) (overwrite durable : Option Bool)
    (atomicity : Option Atomicity) : String :=
  let url := selfUrl ++ "/imp?fmt=json&name=" ++ tableName
  let url := match overwrite with
    | some o => url ++ ("&overwrite=" ++ boolStr o)
    | none => url
  let url := match durable with
    | some d => url ++ ("&durable=" ++ boolStr d)
    | none => url
  match atomicity with
  | some a => url ++ ("&atomicity=" ++ a.toString)
  | none => url

/-- The URL built by QuestDB::exp in src/api.rs: the query is inserted
verbatim (no percent-encoding), then the limit if present. -/
def expUrl (selfUrl query : String) (limit : Option Nat) : String :=
  let url := selfUrl ++ "/exp?query=" ++ query
  match limit with
  | some l => url ++ ("&limit=" ++ Nat.repr l)
  | none => url

/-- Modelled from the spec: a paging range per the spec contract
`limit : Option<PagingRange>` — either a single upper bound or a lower,upper
pair, formatted as limit=<upper> or limit=<lower>,<upper>. The source
signature in src/api.rs takes a plain Option<usize> instead. -/
inductive PagingRange where
  | single (upper : Nat)
  | pair (lower upper : Nat)
deriving DecidableEq, Repr

/-- Modelled from the spec: the formatting of a paging range. -/
def PagingRange.fmt : PagingRange → String
  | .single u => "limit=" ++ Nat.repr u
  | .pair l u => "limit=" ++ Nat.repr l ++ "," ++ Nat.repr u

/-- A generic JSON value, as parsed by serde_json into serde_json::Value
(numbers simplified to integers, which the claims never inspect). -/
inductive Json where
  | null
  | bool (b : Bool)
  | num (n : Int)
  | str (s : String)
  | arr (elems : List Json)
  | obj (entries : List (String × Json))

/-- Lookup of a key in a JSON object's entry list (serde_json maps collapse
duplicate keys at parse time, so first-match lookup is faithful). -/
def lookupEntries : List (String × Json) → String → Option Json
  | [], _ => none
  | (k, v) :: rest, key => if k = key then some v else lookupEntries rest key

/-- Model of serde_json's Value::get on a key: a map lookup on objects,
none on every other value. -/
def Json.get : Json → String → Option Json
  | .obj entries, key => lookupEntries entries key
  | _, _ => none

/-- The response-interpretation tail of QuestDB::exec in src/api.rs, after the
body has been parsed into a Json value: take the value under the dataset key
if it is there and row-decode it; otherwise decode the whole value into an
SQLError and fail. rowDec and sqlDec abstract the two serde_json::from_value
calls; a decoding failure maps to DecodeError through the question-mark
conversion. -/
def execDecode {T : Type} (rowDec : Json → Except String (List T))
    (sqlDec : Json → Except String SQLError) (res : Json) :
    Except Error (List T) :=
  match res.get "dataset" with
  | some d =>
    match rowDec d with
    | .ok rows => .ok rows
    | .error e => .error (.DecodeError e)
  | none =>
    match sqlDec res with
    | .ok sqlErr => .error (.QueryFailed sqlErr)
    | .error e => .error (.DecodeError e)

/-- QuestDB::exec in src/api.rs, end to end: transport abstracts the GET plus
JSON body parse (its Error covers transport and parse failures, which the
question-mark operator surfaces unchanged). -/
def execRun {T : Type} (transport : String → Except Error Json)
    (rowDec : Json → Except String (List T))
    (sqlDec : Json → Except String SQLError)
    (selfUrl query : String) (limit : Option Nat) (count nm : Option Bool) :
    Except Error (List T) :=
  match transport (execUrl selfUrl query limit count nm) with
  | .error e => .error e
  | .ok res => execDecode rowDec sqlDec res

/-- Splits a character list at every slash, keeping empty pieces. -/
def splitSlashAux : List Char → List Char → List String
  | [], acc => [String.mk acc.reverse]
  | c :: rest, acc =>
    if c = '/' then String.mk acc.reverse :: splitSlashAux rest []
    else splitSlashAux rest (c :: acc)

/-- The raw slash-separated pieces of a path string. -/
def pathPieces (p : String) : List String :=
  splitSlashAux p.data []

/-- Model of Rust's Path::file_name on Unix-style UTF-8 paths: the last
normal component — empty pieces (repeated or trailing separators, a leading
root) and current-directory pieces are skipped, and a path whose last
component is a parent-directory reference has no file name. -/
def Path.fileName (p : String) : Option String :=
  let parts := (pathPieces p).filter (fun s => s != "" && s != ".")
  match parts.getLast? with
  | some s => if s = ".." then none else some s
  | none => none

/-- OsStr::to_str on a string that originated as a Rust UTF-8 string slice:
always succeeds. A none here would feed the unwrap panic in QuestDB::imp. -/
def toStrOpt (s : String) : Option String := some s

/-- The file-name derivation of QuestDB::imp in src/api.rs, with its two
unwrap sites kept explicit: none models the panic the unwraps would raise if
to_str failed. -/
def deriveFileName (p : String) : Option String :=
  match Path.fileName p with
  | some nm => toStrOpt nm
  | none => toStrOpt p

/-- A multipart part, as built by reqwest's Part::bytes(..).file_name(..):
the payload bytes and an optional file name. -/
structure Part where
  payload : List Nat
  fileName : Option String
deriving DecidableEq, Repr

/-- reqwest's Part::bytes: a part with no file name yet. -/
def Part.bytesOf (bs : List Nat) : Part := ⟨bs, none⟩

/-- reqwest's Part::file_name: set the part's file name. -/
def Part.withFileName (pt : Part) (nm : String) : Part :=
  { pt with fileName := some nm }

/-- A multipart form: named parts in insertion order. -/
structure Form where
  parts : List (String × Part)
deriving DecidableEq, Repr

/-- reqwest's Form::new: the empty form. -/
def Form.new : Form := ⟨[]⟩

/-- reqwest's Form::part: append a named part. -/
def Form.part (f : Form) (nm : String) (pt : Part) : Form :=
  ⟨f.parts ++ [(nm, pt)]⟩

/-- The multipart form QuestDB::imp sends: a single part named data carrying
the file's bytes and the derived file name. -/
def impForm (bs : List Nat) (nm : String) : Form :=
  Form.new.part "data" ((Part.bytesOf bs).withFileName nm)

/-- QuestDB::imp in src/api.rs, end to end, in the source's order: build the
URL, read the file (fs abstracts File::open plus read_to_end; an Except error
is a local io failure), derive the upload file name (the none of the Option
result models the unwrap panic), build the form, then POST (transport
abstracts send plus text; its String result is the response body, which is
dropped). The Bool in the result records whether the POST was issued. -/
def impRun (fs : String → Except String (List Nat))
    (transport : String → Form → Except String String)
    (selfUrl filePath tableName : String)
    (overwrite durable : Option Bool) (atomicity : Option Atomicity) :
    Option (Except Error Unit × Bool) :=
  let url := impUrl selfUrl tableName overwrite durable atomicity
  match fs filePath with
  | .error e => some (.error (.IoError e), false)
  | .ok fileBytes =>
    match deriveFileName filePath with
    | none => none
    | some nm =>
      match transport url (impForm fileBytes nm) with
      | .error e => some (.error (.TransportError e), true)
      | .ok _body => some (.ok (), true)

/-- QuestDB::exp in src/api.rs, end to end: transport abstracts the GET plus
text body read, writer abstracts write_all on the output file. -/
def expRun (transport : String → Except String String)
    (writer : String → Except String Unit)
    (selfUrl query : String) (limit : Option Nat) : Except Error Unit :=
  match transport (expUrl selfUrl query limit) with
  | .error e => .error (.TransportError e)
  | .ok res =>
    match writer res with
    | .error e => .error (.IoError e)
    | .ok _ => .ok ()

/-- Parameters joined in query-string style: each element prefixed by an
ampersand. -/
def joinAmp : List String → String
  | [] => ""
  | p :: ps => "&" ++ p ++ joinAmp ps

/-- The list of present optional parameters of exec, in declaration order,
each in name=value form; absent parameters contribute nothing. -/
def execPresentParams (limit : Option Nat) (count nm : Option Bool) :
    List String :=
  (limit.map (fun l => "limit=" ++ Nat.repr l)).toList
    ++ (count.map (fun c => "count=" ++ boolStr c)).toList
    ++ (nm.map (fun n => "nm=" ++ boolStr n)).toList

/-- The list of present optional parameters of imp, in declaration order,
each in name=value form; absent parameters contribute nothing. -/
def impPresentParams (overwrite durable : Option Bool)
    (atomicity : Option Atomicity) : List String :=
  (overwrite.map (fun o => "overwrite=" ++ boolStr o)).toList
    ++ (durable.map (fun d => "durable=" ++ boolStr d)).toList
    ++ (atomicity.map (fun a => "atomicity=" ++ a.toString)).toList

/-! Helper lemmas shared by several claim proofs. -/

theorem amp_merge (s t x : String) (h : "&" ++ s = t) :
    "&" ++ (s ++ x) = t ++ x := by
  rw [← String.append_assoc, h]

theorem ampLimit (x : String) : "&" ++ ("limit=" ++ x) = "&limit=" ++ x :=
  amp_merge _ _ x (by decide)

theorem ampCount (x : String) : "&" ++ ("count=" ++ x) = "&count=" ++ x :=
  amp_merge _ _ x (by decide)

theorem ampNm (x : String) : "&" ++ ("nm=" ++ x) = "&nm=" ++ x :=
  amp_merge _ _ x (by decide)

theorem ampOverwrite (x : String) :
    "&" ++ ("overwrite=" ++ x) = "&overwrite=" ++ x :=
  amp_merge _ _ x (by decide)

theorem ampDurable (x : String) :
    "&" ++ ("durable=" ++ x) = "&durable=" ++ x :=
  amp_merge _ _ x (by decide)

theorem ampAtomicity (x : String) :
    "&" ++ ("atomicity=" ++ x) = "&atomicity=" ++ x :=
  amp_merge _ _ x (by decide)

/-- The exec URL decomposes as the encoded query followed by exactly the
present optional parameters, ampersand-joined, in declaration order. -/
theorem execUrl_split (b q : String) (l : Option Nat) (c n : Option Bool) :
    execUrl b q l c n
      = b ++ "/exec?query=" ++ encode q ++ joinAmp (execPresentParams l c n) := by
  cases l <;> cases c <;> cases n <;>
    simp [execUrl, execPresentParams, joinAmp, String.append_assoc,
      String.append_empty, ampLimit, ampCount, ampNm]

/-- The imp URL decomposes as the verbatim table name followed by exactly the
present optional parameters, ampersand-joined, in declaration order. -/
theorem impUrl_split (b t : String) (o d : Option Bool)
    (a : Option Atomicity) :
    impUrl b t o d a
      = b ++ "/imp?fmt=json&name=" ++ t ++ joinAmp (impPresentParams o d a) := by
  cases o <;> cases d <;> cases a <;>
    simp [impUrl, impPresentParams, joinAmp, String.append_assoc,
      String.append_empty, ampOverwrite, ampDurable, ampAtomicity]

/-- The exp URL decomposes as the verbatim query followed by the limit
parameter when present. -/
theorem expUrl_split (b q : String) (l : Option Nat) :
    expUrl b q l
      = b ++ "/exp?query=" ++ q
        ++ joinAmp ((l.map (fun x => "limit=" ++ Nat.repr x)).toList) := by
  cases l <;>
    simp [expUrl, joinAmp, String.append_assoc, String.append_empty, ampLimit]

/-- The file-name derivation of imp is total on UTF-8 paths: it yields the
final path segment when there is one and the whole path otherwise. -/
theorem deriveFileName_some (p : String) :
    deriveFileName p = some ((Path.fileName p).getD p) := by
  unfold deriveFileName toStrOpt
  cases Path.fileName p <;> rfl

/-- C2: exec percent-encodes the full query string before inserting it into
the URL, while exp inserts its query verbatim and imp inserts its table name
verbatim; and the encoding is not partial — it escapes every reserved byte of
the query, as the sample evaluation shows. -/
theorem url_encoding_contrast (b q t : String) (l lq : Option Nat)
    (c n o d : Option Bool) (a : Option Atomicity) :
    (∃ s, execUrl b q l c n = b ++ "/exec?query=" ++ encode q ++ s)
    ∧ (∃ s, expUrl b q lq = b ++ "/exp?query=" ++ q ++ s)
    ∧ (∃ s, impUrl b t o d a = b ++ "/imp?fmt=json&name=" ++ t ++ s)
    ∧ encode "a b&c=d" = "a%20b%26c%3Dd" :=
  ⟨⟨_, execUrl_split b q l c n⟩, ⟨_, expUrl_split b q lq⟩,
    ⟨_, impUrl_split b t o d a⟩, by decide⟩

/-- C3: the exec URL's query string holds exactly the present optional
parameters, each in name=value form, ampersand-joined, in declaration order
limit, count, nm, after the query parameter; absent parameters are omitted.
With limit and nm absent and count true the suffix is the count parameter
alone. -/
theorem exec_url_optional_params (b q : String) (l : Option Nat)
    (c n : Option Bool) :
    execUrl b q l c n
      = b ++ "/exec?query=" ++ encode q ++ joinAmp (execPresentParams l c n)
    ∧ joinAmp (execPresentParams none (some true) none) = "&count=true" :=
  ⟨execUrl_split b q l c n, by decide⟩

/-- C4: the single-value limit of the source formats as limit=20 in both exec
and exp; the spec's pair form limit=10,20 exists only for the spec-modelled
PagingRange — the source's limit argument is a plain optional natural and
cannot carry a lower,upper pair. -/
theorem limit_pair_unsupported :
    PagingRange.fmt (.pair 10 20) = "limit=10,20"
    ∧ PagingRange.fmt (.single 20) = "limit=20"
    ∧ execUrl "h" "q" (some 20) none none = "h/exec?query=q&limit=20"
    ∧ expUrl "h" "q" (some 20) = "h/exp?query=q&limit=20" := by
  refine ⟨by decide, by decide, ?_, ?_⟩ <;> decide

/-- C8: the imp URL starts from the fixed fmt=json and name parameters and
appends exactly the present optional parameters overwrite, durable, atomicity
in that order, with Atomicity serialized in lowercase. -/
theorem imp_url_shape (b t : String) (o d : Option Bool)
    (a : Option Atomicity) :
    impUrl b t o d a
      = b ++ "/imp?fmt=json&name=" ++ t ++ joinAmp (impPresentParams o d a)
    ∧ Atomicity.toString .Strict = "strict"
    ∧ Atomicity.toString .Relaxed = "relaxed"
    ∧ joinAmp (impPresentParams none none (some .Strict)) = "&atomicity=strict"
    ∧ joinAmp (impPresentParams none none (some .Relaxed))
        = "&atomicity=relaxed" :=
  ⟨impUrl_split b t o d a, rfl, rfl, by decide, by decide⟩

/-- C10: the exp URL construction is not injective — the raw query containing
a literal ampersand-limit text with limit absent builds exactly the URL that
the plain query with limit five builds, though the argument pairs differ. -/
theorem exp_url_not_injective (b : String) :
    expUrl b "select 1&limit=5" none = expUrl b "select 1" (some 5)
    ∧ ("select 1&limit=5", (none : Option Nat)) ≠ ("select 1", some 5) := by
  constructor
  · simp only [expUrl]
    rw [String.append_assoc (b ++ "/exp?query=") "select 1"
      ("&limit=" ++ Nat.repr 5)]
    rw [show "select 1" ++ ("&limit=" ++ Nat.repr 5) = "select 1&limit=5" from
      by decide]
  · decide

/-- C1: exec on a parsed response object returns the row-decoded dataset
sub-value when the dataset key is present; when it is absent, exec decodes the
entire object into an SQLError and fails with QueryFailed, and its result does
not depend on the row decoder at all. -/
theorem exec_dataset_discrimination {T : Type}
    (rowDec rowDec' : Json → Except String (List T))
    (sqlDec : Json → Except String SQLError) (res : Json) :
    (∀ d rows, res.get "dataset" = some d → rowDec d = .ok rows →
      execDecode rowDec sqlDec res = .ok rows)
    ∧ (∀ sqlErr, res.get "dataset" = none → sqlDec res = .ok sqlErr →
      execDecode rowDec sqlDec res = .error (.QueryFailed sqlErr))
    ∧ (res.get "dataset" = none →
      execDecode rowDec sqlDec res = execDecode rowDec' sqlDec res) := by
  refine ⟨?_, ?_, ?_⟩
  · intro d rows hd hr
    simp only [execDecode, hd, hr]
  · intro sqlErr hd hs
    simp only [execDecode, hd, hs]
  · intro hd
    simp only [execDecode, hd]

/-- A response object holding a dataset array, as the server sends on
success. -/
def sampleRowsJson : Json :=
  Json.obj [("dataset", Json.arr [Json.num 1])]

/-- A response object with no dataset key, as the server sends on a failed
query. -/
def sampleErrJson : Json :=
  Json.obj [("query", Json.str "selec"), ("error", Json.str "boom"),
    ("position", Json.num 3)]

/-- A row decoder that accepts anything. -/
def goodRowDec : Json → Except String (List Nat) := fun _ => .ok [1]

/-- A row decoder that rejects everything. -/
def badRowDec : Json → Except String (List Nat) := fun _ =>
  .error "schema mismatch"

/-- An SQLError decoder that accepts anything. -/
def constSqlDec : Json → Except String SQLError := fun _ => .ok ⟨"boom", some 3⟩

/-- Witness for C1 at concrete responses: the dataset response decodes to
rows, the error response fails with QueryFailed, and on the error response
the row decoder is irrelevant. -/
theorem exec_dataset_discrimination_witness :
    execDecode goodRowDec constSqlDec sampleRowsJson = .ok [1]
    ∧ execDecode goodRowDec constSqlDec sampleErrJson
        = .error (.QueryFailed ⟨"boom", some 3⟩)
    ∧ execDecode goodRowDec constSqlDec sampleErrJson
        = execDecode badRowDec constSqlDec sampleErrJson := by
  refine ⟨?_, ?_, ?_⟩
  · exact (exec_dataset_discrimination goodRowDec badRowDec constSqlDec
      sampleRowsJson).1 (Json.arr [Json.num 1]) [1] rfl rfl
  · exact (exec_dataset_discrimination goodRowDec badRowDec constSqlDec
      sampleErrJson).2.1 ⟨"boom", some 3⟩ rfl rfl
  · exact (exec_dataset_discrimination goodRowDec badRowDec constSqlDec
      sampleErrJson).2.2 rfl

/-- C5: when the file cannot be opened or read, imp fails with IoError and
the POST is never issued — for every transport, the result carries the false
request flag and the IoError wrapping the file failure. -/
theorem imp_io_error_before_request
    (fs : String → Except String (List Nat))
    (transport : String → Form → Except String String)
    (b p t : String) (o d : Option Bool) (a : Option Atomicity)
    (e : String) (h : fs p = .error e) :
    impRun fs transport b p t o d a = some (.error (.IoError e), false) := by
  simp only [impRun, h]

/-- Witness for C5 at a concrete failing filesystem: imp returns the IoError
and the request flag stays false. -/
theorem imp_io_error_before_request_witness :
    impRun (fun _ => .error "no such file") (fun _ _ => .ok "") "h"
        "./links.csv" "tbl" none none none
      = some (.error (.IoError "no such file"), false) :=
  imp_io_error_before_request (fun _ => .error "no such file")
    (fun _ _ => .ok "") "h" "./links.csv" "tbl" none none none
    "no such file" rfl

/-- C6: whenever the file read succeeds and the HTTP exchange completes, imp
returns success regardless of what the response body contains — the body is
read and dropped, never parsed. -/
theorem imp_ignores_response_body
    (fs : String → Except String (List Nat))
    (bodyOf : String → Form → String)
    (b p t : String) (o d : Option Bool) (a : Option Atomicity)
    (bs : List Nat) (h : fs p = .ok bs) :
    impRun fs (fun u f => .ok (bodyOf u f)) b p t o d a
      = some (.ok (), true) := by
  simp only [impRun, h, deriveFileName_some]

/-- Witness for C6 at a concrete filesystem and a transport answering an
arbitrary body: imp returns success. -/
theorem imp_ignores_response_body_witness :
    impRun (fun _ => .ok [49, 50])
        (fun _ _ => .ok "row errors were reported here") "h" "./links.csv"
        "tbl" none none none
      = some (.ok (), true) :=
  imp_ignores_response_body (fun _ => .ok [49, 50])
    (fun _ _ => "row errors were reported here") "h" "./links.csv" "tbl"
    none none none [49, 50] rfl

/-- C7: imp never aborts — for every filesystem, transport and argument list
the run produces a result value (the none that would model the unwrap panic in
the file-name derivation is unreachable), so every failure is a returned Error
value; exec and exp return Except values by construction. -/
theorem imp_never_panics
    (fs : String → Except String (List Nat))
    (transport : String → Form → Except String String)
    (b p t : String) (o d : Option Bool) (a : Option Atomicity) :
    (impRun fs transport b p t o d a).isSome = true := by
  cases hf : fs p with
  | error e =>
    simp only [impRun, hf]
    rfl
  | ok bs =>
    cases htr : transport (impUrl b t o d a)
        (impForm bs ((Path.fileName p).getD p)) with
    | error e =>
      simp only [impRun, hf, deriveFileName_some, htr]
      rfl
    | ok body =>
      simp only [impRun, hf, deriveFileName_some, htr]
      rfl

/-- C9: the upload file name is the path's final segment when one exists and
the whole path string otherwise, and the multipart body is a single part
named data carrying the file bytes and that name. -/
theorem imp_file_name_derivation (p : String) (bs : List Nat) :
    Path.fileName "./links.csv" = some "links.csv"
    ∧ (∀ s, Path.fileName p = some s → deriveFileName p = some s)
    ∧ (Path.fileName p = none → deriveFileName p = some p)
    ∧ (∀ nm, impForm bs nm = ⟨[("data", ⟨bs, some nm⟩)]⟩) := by
  refine ⟨by decide, ?_, ?_, ?_⟩
  · intro s hs
    rw [deriveFileName_some, hs]
    rfl
  · intro hn
    rw [deriveFileName_some, hn]
    rfl
  · intro nm
    rfl

/-- Witness for C9 at concrete paths: the dotted path yields its final
segment, a path with no file-name segment falls back to the whole string, and
the form holds the single data part. -/
theorem imp_file_name_derivation_witness :
    Path.fileName "./links.csv" = some "links.csv"
    ∧ deriveFileName "a/b.csv" = some "b.csv"
    ∧ deriveFileName ".." = some ".."
    ∧ impForm [55] "b.csv" = ⟨[("data", ⟨[55], some "b.csv"⟩)]⟩ :=
  ⟨(imp_file_name_derivation "a/b.csv" [55]).1,
    (imp_file_name_derivation "a/b.csv" [55]).2.1 "b.csv" (by decide),
    (imp_file_name_derivation ".." [55]).2.2.1 (by decide),
    (imp_file_name_derivation "a/b.csv" [55]).2.2.2 "b.csv"⟩

end QuestDBClient
